import Mathlib

/- Shallow embedding of the groove physics engine of Lightning Studios.
   Sources: src/grooveKernel.js, src/grooveField.js, src/emotionField.js,
   src/grooveEngine.js, src/hardwareEmulation.js (the file under
   src/src/emotionField.js that also carries the hardware-emulation layer).
   JavaScript numbers are modelled as exact rationals, or as reals in the
   paths where the source evaluates transcendental functions (Math.pow with
   fractional exponent, Math.log, Math.sin, Math.cos, Math.sqrt).
   The JS falsy fallback `x || d` on a numeric field (which replaces both
   an absent field and an explicit 0 by `d`) is modelled by `jsOr`; the JS
   nullish fallback `x ?? d` is modelled by `Option.getD`; optional
   sub-objects and an optional RNG are modelled by `Option`. -/

/-- Models the JS expression `x || d` on numbers: evaluates to `d` when `x`
is `0` (the only falsy rational), and to `x` otherwise. -/
def jsOr {α : Type} [LinearOrderedField α] (x d : α) : α :=
  if x = 0 then d else x

/-- Models the JS expression `s || d` on strings: the empty string is falsy. -/
def jsOrS (s d : String) : String :=
  if s = "" then d else s

/-- Models JS `Math.trunc`-style truncation toward zero, the rounding used by
the JS `%` remainder operator. -/
def jsTrunc {α : Type} [LinearOrderedField α] [FloorRing α] (x : α) : ℤ :=
  if 0 ≤ x then ⌊x⌋ else ⌈x⌉

/-- Models the JS `%` remainder operator on numbers: `a - b * trunc (a / b)`.
The source only applies it with a nonzero right operand (every divisor goes
through a `|| default` fallback with a nonzero default). -/
def jsMod {α : Type} [LinearOrderedField α] [FloorRing α] (a b : α) : α :=
  a - b * (jsTrunc (a / b) : α)

/-- Clamps value to [lo, hi] - from emotionField.js (function clamp). -/
def clamp {α : Type} [LinearOrder α] (v lo hi : α) : α :=
  if v < lo then lo else if v > hi then hi else v

-- ═══════════════════════════════════════════════════════════
-- grooveKernel.js - UNIFIED DISPLACEMENT KERNEL
-- ═══════════════════════════════════════════════════════════

/-- The precomputed displacement-coefficient context consumed by
computeGrooveDisplacement - from the destructuring at the top of
computeGrooveDisplacement in grooveKernel.js. -/
structure GrooveContext (α : Type) where
  bpm : α
  grooveAmount : α
  linearOffset : α
  curvature : α
  phaseCoupling : α
  harmonicGravity : α
  macroDrift : α
  jitter : α
  maxPushMs : α
  maxDragMs : α
  maxPhaseErrorMs : α
deriving DecidableEq

/-- UNIFIED GROOVE DISPLACEMENT KERNEL - computeGrooveDisplacement from
grooveKernel.js. Pure closed-form displacement equation: tempo scalar
`beta = 90 / (bpm || 90)`, elastic field amplified by harmonic gravity only
when positive, additive field scaled by beta, then the phrase-constraint
clamp, the feel-bias clamp, and the final groove-amount scaling. -/
def computeGrooveDisplacement {α : Type} [LinearOrderedField α]
    (context : GrooveContext α) : α :=
  let beta := 90 / jsOr context.bpm 90
  let elasticRaw := context.curvature + context.phaseCoupling
  let elastic := if elasticRaw > 0 then context.harmonicGravity * elasticRaw else elasticRaw
  let raw := beta * (context.linearOffset + elastic + context.macroDrift + context.jitter)
  let phraseClamped :=
    if context.maxPhaseErrorMs > 0 then
      max (-context.maxPhaseErrorMs * beta) (min (context.maxPhaseErrorMs * beta) raw)
    else raw
  let clamped := max (context.maxPushMs * beta) (min (context.maxDragMs * beta) phraseClamped)
  clamped * context.grooveAmount

lemma jsOr_of_ne {α : Type} [LinearOrderedField α] {x : α} (d : α) (h : x ≠ 0) :
    jsOr x d = x := if_neg h

lemma jsOr_zero_left {α : Type} [LinearOrderedField α] (d : α) : jsOr 0 d = d := if_pos rfl

lemma jsOr_self_zero {α : Type} [LinearOrderedField α] (x : α) : jsOr x 0 = x := by
  unfold jsOr; split <;> simp_all

/-- C1 - Kernel boundedness: with feel limits max_push_ms <= 0 <= max_drag_ms,
groove_amount in [0,1] and bpm > 0, the absolute value of the kernel output is
at most max(|max_push_ms|, max_drag_ms) * (90/bpm) * groove_amount. -/
theorem kernel_output_bounded {ctx : GrooveContext ℚ}
    (hp : ctx.maxPushMs ≤ 0) (hd : 0 ≤ ctx.maxDragMs)
    (hg0 : 0 ≤ ctx.grooveAmount) (_hg1 : ctx.grooveAmount ≤ 1)
    (hb : 0 < ctx.bpm) :
    |computeGrooveDisplacement ctx| ≤
      max |ctx.maxPushMs| ctx.maxDragMs * (90 / ctx.bpm) * ctx.grooveAmount := by
  unfold computeGrooveDisplacement
  rw [jsOr_of_ne 90 (ne_of_gt hb)]
  set beta := 90 / ctx.bpm with hbeta
  have hbpos : 0 < beta := div_pos (by norm_num) hb
  set x : ℚ := if ctx.maxPhaseErrorMs > 0 then
      max (-ctx.maxPhaseErrorMs * beta)
        (min (ctx.maxPhaseErrorMs * beta)
          (beta * (ctx.linearOffset +
            (if ctx.curvature + ctx.phaseCoupling > 0 then
              ctx.harmonicGravity * (ctx.curvature + ctx.phaseCoupling)
             else ctx.curvature + ctx.phaseCoupling) + ctx.macroDrift + ctx.jitter)))
    else
      beta * (ctx.linearOffset +
        (if ctx.curvature + ctx.phaseCoupling > 0 then
          ctx.harmonicGravity * (ctx.curvature + ctx.phaseCoupling)
         else ctx.curvature + ctx.phaseCoupling) + ctx.macroDrift + ctx.jitter) with hx
  have hclamp_le : max (ctx.maxPushMs * beta) (min (ctx.maxDragMs * beta) x)
      ≤ ctx.maxDragMs * beta := by
    apply max_le
    · calc ctx.maxPushMs * beta ≤ 0 := mul_nonpos_of_nonpos_of_nonneg hp hbpos.le
        _ ≤ ctx.maxDragMs * beta := mul_nonneg hd hbpos.le
    · exact min_le_left _ _
  have hclamp_ge : ctx.maxPushMs * beta
      ≤ max (ctx.maxPushMs * beta) (min (ctx.maxDragMs * beta) x) := le_max_left _ _
  have habs : |max (ctx.maxPushMs * beta) (min (ctx.maxDragMs * beta) x)|
      ≤ max |ctx.maxPushMs| ctx.maxDragMs * beta := by
    rw [abs_le]
    constructor
    · calc -(max |ctx.maxPushMs| ctx.maxDragMs * beta)
          ≤ -(|ctx.maxPushMs| * beta) := by
            apply neg_le_neg
            exact mul_le_mul_of_nonneg_right (le_max_left _ _) hbpos.le
        _ = ctx.maxPushMs * beta := by
            rw [abs_of_nonpos hp]; ring
        _ ≤ _ := hclamp_ge
    · calc max (ctx.maxPushMs * beta) (min (ctx.maxDragMs * beta) x)
          ≤ ctx.maxDragMs * beta := hclamp_le
        _ ≤ max |ctx.maxPushMs| ctx.maxDragMs * beta :=
            mul_le_mul_of_nonneg_right (le_max_right _ _) hbpos.le
  calc |max (ctx.maxPushMs * beta) (min (ctx.maxDragMs * beta) x) * ctx.grooveAmount|
      = |max (ctx.maxPushMs * beta) (min (ctx.maxDragMs * beta) x)| * ctx.grooveAmount := by
        rw [abs_mul, abs_of_nonneg hg0]
    _ ≤ max |ctx.maxPushMs| ctx.maxDragMs * beta * ctx.grooveAmount :=
        mul_le_mul_of_nonneg_right habs hg0

/-- Witness for kernel_output_bounded at a concrete laid-back context. -/
theorem kernel_output_bounded_witness :
    |computeGrooveDisplacement
        (GrooveContext.mk 120 (1/2) 3 10 (-2) (6/5) 4 (-1) (-5) 25 50 : GrooveContext ℚ)| ≤
      max |(-5 : ℚ)| 25 * (90 / 120) * (1/2) :=
  @kernel_output_bounded (GrooveContext.mk 120 (1/2) 3 10 (-2) (6/5) 4 (-1) (-5) 25 50)
    (by norm_num) (by norm_num) (by norm_num) (by norm_num) (by norm_num)

lemma min_div_two (a b : ℚ) : min (a / 2) (b / 2) = min a b / 2 := by
  rcases le_total a b with h | h
  · rw [min_eq_left h, min_eq_left (by linarith)]
  · rw [min_eq_right h, min_eq_right (by linarith)]

lemma max_div_two (a b : ℚ) : max (a / 2) (b / 2) = max a b / 2 := by
  rcases le_total a b with h | h
  · rw [max_eq_right h, max_eq_right (by linarith)]
  · rw [max_eq_left h, max_eq_left (by linarith)]

/-- C2 - Tempo scaling: with bpm > 0 and every other coefficient held fixed,
doubling bpm yields exactly half the kernel displacement. -/
theorem kernel_tempo_doubling_halves (ctx : GrooveContext ℚ) (hb : 0 < ctx.bpm) :
    computeGrooveDisplacement { ctx with bpm := 2 * ctx.bpm } =
      computeGrooveDisplacement ctx / 2 := by
  unfold computeGrooveDisplacement
  simp only
  rw [jsOr_of_ne 90 (ne_of_gt hb), jsOr_of_ne 90 (by positivity)]
  have hbeta2 : 90 / (2 * ctx.bpm) = 90 / ctx.bpm / 2 := by
    field_simp
    ring
  rw [hbeta2]
  set beta := 90 / ctx.bpm with hbeta
  set S : ℚ := ctx.linearOffset +
      (if ctx.curvature + ctx.phaseCoupling > 0 then
        ctx.harmonicGravity * (ctx.curvature + ctx.phaseCoupling)
       else ctx.curvature + ctx.phaseCoupling) + ctx.macroDrift + ctx.jitter with hS
  have hraw : beta / 2 * S = beta * S / 2 := by ring
  rw [hraw]
  have hphrase :
      (if ctx.maxPhaseErrorMs > 0 then
        max (-ctx.maxPhaseErrorMs * (beta / 2)) (min (ctx.maxPhaseErrorMs * (beta / 2)) (beta * S / 2))
      else beta * S / 2) =
      (if ctx.maxPhaseErrorMs > 0 then
        max (-ctx.maxPhaseErrorMs * beta) (min (ctx.maxPhaseErrorMs * beta) (beta * S))
      else beta * S) / 2 := by
    split
    · rw [show -ctx.maxPhaseErrorMs * (beta / 2) = -ctx.maxPhaseErrorMs * beta / 2 by ring,
        show ctx.maxPhaseErrorMs * (beta / 2) = ctx.maxPhaseErrorMs * beta / 2 by ring,
        min_div_two, max_div_two]
    · rfl
  rw [hphrase]
  rw [show ctx.maxPushMs * (beta / 2) = ctx.maxPushMs * beta / 2 by ring,
    show ctx.maxDragMs * (beta / 2) = ctx.maxDragMs * beta / 2 by ring,
    min_div_two, max_div_two]
  ring

/-- Witness for kernel_tempo_doubling_halves at a concrete context. -/
theorem kernel_tempo_doubling_halves_witness :
    computeGrooveDisplacement
        { (GrooveContext.mk 90 1 3 10 (-2) (6/5) 4 (-1) (-5) 25 50 : GrooveContext ℚ) with
          bpm := 2 * 90 } =
      computeGrooveDisplacement
        (GrooveContext.mk 90 1 3 10 (-2) (6/5) 4 (-1) (-5) 25 50 : GrooveContext ℚ) / 2 :=
  kernel_tempo_doubling_halves
    (GrooveContext.mk 90 1 3 10 (-2) (6/5) 4 (-1) (-5) 25 50 : GrooveContext ℚ) (by norm_num)

/-- C10 - Kernel totality at bpm = 0: the `bpm || 90` fallback makes the
kernel evaluate a zero bpm exactly as it evaluates bpm = 90 (beta = 1 in
both cases); the kernel never divides by a zero bpm. -/
theorem kernel_bpm_zero_fallback (ctx : GrooveContext ℚ) :
    computeGrooveDisplacement { ctx with bpm := 0 } =
      computeGrooveDisplacement { ctx with bpm := 90 } := by
  have h : jsOr (0 : ℚ) 90 = jsOr (90 : ℚ) 90 := by norm_num [jsOr]
  unfold computeGrooveDisplacement
  dsimp only
  rw [h]

-- ═══════════════════════════════════════════════════════════
-- emotionField.js - EMOTIONAL FIELD LAYER
-- ═══════════════════════════════════════════════════════════

/-- Emotion vector over the five-dimensional emotional basis set - from
emotionField.js (D1). Each dimension is a continuous scalar. -/
structure EmotionVector (α : Type) where
  loneliness : α
  tension : α
  admiration : α
  defiance : α
  calm : α
deriving DecidableEq

/-- One row of the coefficient mapping table - from EMOTION_COEFFICIENT_MAP
in emotionField.js (D2). -/
structure EmotionCoeffs (α : Type) where
  dL : α
  dC : α
  dOv : α
  dGm : α
  dPb : α
  dSg : α
  dDW : α
deriving DecidableEq

/-- EMOTION_BASIS - the ordered emotional basis array from emotionField.js. -/
def EMOTION_BASIS : List String :=
  ["loneliness", "tension", "admiration", "defiance", "calm"]

/-- EMOTION_COEFFICIENT_MAP from emotionField.js, as a lookup keyed by the
basis name. Decimal coefficients are written as exact fractions
(for example 0.15 is 15/100). -/
def emotionCoefficientMap {α : Type} [LinearOrderedField α] : String → EmotionCoeffs α
  | "loneliness" => EmotionCoeffs.mk 3 (15/100) (-25/100) (8/100) (20/100) (10/100) (5/100)
  | "tension" => EmotionCoeffs.mk (-2) (-10/100) (35/100) (15/100) (-25/100) (20/100) (-5/100)
  | "admiration" => EmotionCoeffs.mk (3/2) (8/100) (15/100) (-5/100) (15/100) (-12/100) (3/100)
  | "defiance" => EmotionCoeffs.mk (-35/10) (-12/100) (30/100) (-10/100) (-20/100) (8/100) (-8/100)
  | "calm" => EmotionCoeffs.mk 0 (-5/100) (-15/100) (-3/100) (-10/100) (-20/100) (2/100)
  | _ => EmotionCoeffs.mk 0 0 0 0 0 0 0

/-- The dynamic access emotionVector[key] performed in the loop of
applyEmotionalBias. -/
def emotionValue {α : Type} [LinearOrderedField α] (v : EmotionVector α) : String → α
  | "loneliness" => v.loneliness
  | "tension" => v.tension
  | "admiration" => v.admiration
  | "defiance" => v.defiance
  | "calm" => v.calm
  | _ => 0

/-- The aggregate bias deltas accumulated by the loop over EMOTION_BASIS in
applyEmotionalBias (sumDL .. sumDDW); each dimension is read through
`emotionVector[key] || 0` and clamped to [0,1] before weighting. -/
def emotionBiasSums {α : Type} [LinearOrderedField α] (v : EmotionVector α) : EmotionCoeffs α :=
  EMOTION_BASIS.foldl
    (fun acc key =>
      let e := clamp (jsOr (emotionValue v key) 0) 0 1
      let coeff : EmotionCoeffs α := emotionCoefficientMap key
      EmotionCoeffs.mk (acc.dL + e * coeff.dL) (acc.dC + e * coeff.dC)
        (acc.dOv + e * coeff.dOv) (acc.dGm + e * coeff.dGm) (acc.dPb + e * coeff.dPb)
        (acc.dSg + e * coeff.dSg) (acc.dDW + e * coeff.dDW))
    (EmotionCoeffs.mk 0 0 0 0 0 0 0)

/-- createNeutralEmotionVector from emotionField.js: the all-zero vector. -/
def createNeutralEmotionVector {α : Type} [LinearOrderedField α] : EmotionVector α :=
  EmotionVector.mk 0 0 0 0 0

/-- EMOTIONAL FIELD BIAS INJECTION - applyEmotionalBias from emotionField.js.
A null or undefined vector returns the context unchanged; otherwise a new
context is produced with the seven documented coefficient bias rules. -/
def applyEmotionalBias {α : Type} [LinearOrderedField α]
    (context : GrooveContext α) (emotionVector : Option (EmotionVector α)) : GrooveContext α :=
  match emotionVector with
  | none => context
  | some v =>
    let s := emotionBiasSums v
    { context with
      linearOffset := context.linearOffset + s.dL
      curvature := context.curvature * (1 + s.dC)
      phaseCoupling := context.phaseCoupling * (1 + s.dOv)
      harmonicGravity := max 1 (context.harmonicGravity + s.dGm)
      macroDrift := context.macroDrift * (1 + s.dPb)
      jitter := context.jitter * max 0 (1 + s.dSg)
      grooveAmount := clamp (context.grooveAmount + s.dDW) 0 1 }

lemma clamp_of_mem {α : Type} [LinearOrder α] {v lo hi : α} (h0 : lo ≤ v) (h1 : v ≤ hi) :
    clamp v lo hi = v := by
  unfold clamp
  rw [if_neg (not_lt.2 h0), if_neg (not_lt.2 h1)]

lemma emotionBiasSums_neutral :
    emotionBiasSums (createNeutralEmotionVector : EmotionVector ℚ) =
      EmotionCoeffs.mk 0 0 0 0 0 0 0 := by
  simp [emotionBiasSums, EMOTION_BASIS, emotionValue, createNeutralEmotionVector,
    emotionCoefficientMap, clamp, jsOr]
  norm_num

/-- C3 counterexample: a context whose harmonic gravity is below the 1.0
floor changes its kernel output under the all-zero emotion vector, because
applyEmotionalBias re-applies the max(1.0, gravity) floor. -/
theorem emotional_bias_zero_vector_not_identity_cex :
    computeGrooveDisplacement
        (applyEmotionalBias
          (GrooveContext.mk 90 1 0 10 0 (1/2) 0 0 (-100) 100 0 : GrooveContext ℚ)
          (some createNeutralEmotionVector)) ≠
      computeGrooveDisplacement
        (GrooveContext.mk 90 1 0 10 0 (1/2) 0 0 (-100) 100 0 : GrooveContext ℚ) := by
  unfold applyEmotionalBias
  dsimp only
  rw [emotionBiasSums_neutral]
  norm_num [computeGrooveDisplacement, jsOr, clamp]

/-- C3 amended - Emotional-bias identity: a null or absent vector returns the
context itself unconditionally; for a context whose harmonic gravity already
satisfies the 1.0 floor and whose groove amount lies in [0,1], the all-zero
vector returns the context unchanged field-for-field, hence with an identical
kernel output. -/
theorem emotional_bias_identity_amended (c : GrooveContext ℚ)
    (hg : 1 ≤ c.harmonicGravity) (ha0 : 0 ≤ c.grooveAmount) (ha1 : c.grooveAmount ≤ 1) :
    applyEmotionalBias c none = c ∧
      applyEmotionalBias c (some createNeutralEmotionVector) = c ∧
      computeGrooveDisplacement (applyEmotionalBias c (some createNeutralEmotionVector)) =
        computeGrooveDisplacement c := by
  have hzero : applyEmotionalBias c (some createNeutralEmotionVector) = c := by
    unfold applyEmotionalBias
    dsimp only
    rw [emotionBiasSums_neutral]
    dsimp only
    simp only [add_zero, mul_one]
    rw [max_eq_right zero_le_one, mul_one, max_eq_right hg, clamp_of_mem ha0 ha1]
  exact ⟨rfl, hzero, by rw [hzero]⟩

/-- Witness for emotional_bias_identity_amended at a concrete context. -/
theorem emotional_bias_identity_amended_witness :
    applyEmotionalBias (GrooveContext.mk 90 1 0 10 0 (3/2) 0 0 (-5) 25 0 : GrooveContext ℚ)
        none = GrooveContext.mk 90 1 0 10 0 (3/2) 0 0 (-5) 25 0 ∧
      applyEmotionalBias (GrooveContext.mk 90 1 0 10 0 (3/2) 0 0 (-5) 25 0 : GrooveContext ℚ)
        (some createNeutralEmotionVector) = GrooveContext.mk 90 1 0 10 0 (3/2) 0 0 (-5) 25 0 ∧
      computeGrooveDisplacement
          (applyEmotionalBias (GrooveContext.mk 90 1 0 10 0 (3/2) 0 0 (-5) 25 0 : GrooveContext ℚ)
            (some createNeutralEmotionVector)) =
        computeGrooveDisplacement
          (GrooveContext.mk 90 1 0 10 0 (3/2) 0 0 (-5) 25 0 : GrooveContext ℚ) :=
  emotional_bias_identity_amended
    (GrooveContext.mk 90 1 0 10 0 (3/2) 0 0 (-5) 25 0 : GrooveContext ℚ)
    (by norm_num) (by norm_num) (by norm_num)

/-- C6 counterexample: a context with negative jitter keeps a negative jitter
after emotional bias (the bias multiplies jitter by a nonnegative factor, it
does not make jitter nonnegative). -/
theorem emotional_bias_jitter_negative_cex :
    (applyEmotionalBias (GrooveContext.mk 90 1 0 0 0 1 0 (-1) (-5) 25 0 : GrooveContext ℚ)
        (some createNeutralEmotionVector)).jitter < 0 := by
  unfold applyEmotionalBias
  dsimp only
  rw [emotionBiasSums_neutral]
  norm_num

lemma emotional_bias_gravity_fold_preserve (vs : List (EmotionVector ℚ))
    (c : GrooveContext ℚ) (h : 1 ≤ c.harmonicGravity) :
    1 ≤ (vs.foldl (fun acc v => applyEmotionalBias acc (some v)) c).harmonicGravity := by
  induction vs generalizing c with
  | nil => exact h
  | cons v vs ih =>
    rw [List.foldl_cons]
    exact ih _ (le_max_left _ _)

/-- C6 amended - Post-bias bounds: for every context and every present (non
null) emotion vector, the biased context satisfies harmonicGravity >= 1 and
grooveAmount in [0,1]; the jitter is multiplied by a nonnegative factor, so
it stays nonnegative whenever the incoming jitter is nonnegative (a negative
incoming jitter can stay negative); the gravity floor holds after any
nonempty sequence of emotional-bias applications with present vectors. -/
theorem emotional_bias_bounds_amended :
    (∀ (c : GrooveContext ℚ) (v : EmotionVector ℚ),
        1 ≤ (applyEmotionalBias c (some v)).harmonicGravity ∧
        0 ≤ (applyEmotionalBias c (some v)).grooveAmount ∧
        (applyEmotionalBias c (some v)).grooveAmount ≤ 1 ∧
        (0 ≤ c.jitter → 0 ≤ (applyEmotionalBias c (some v)).jitter)) ∧
      ∀ (c : GrooveContext ℚ) (vs : List (EmotionVector ℚ)), vs ≠ [] →
        1 ≤ (vs.foldl (fun acc v => applyEmotionalBias acc (some v)) c).harmonicGravity := by
  constructor
  · intro c v
    refine ⟨le_max_left _ _, ?_, ?_, fun hj => mul_nonneg hj (le_max_left _ _)⟩
    · show (0 : ℚ) ≤ clamp (c.grooveAmount + (emotionBiasSums v).dDW) 0 1
      unfold clamp
      split_ifs <;> linarith
    · show clamp (c.grooveAmount + (emotionBiasSums v).dDW) 0 1 ≤ (1 : ℚ)
      unfold clamp
      split_ifs with h1 h2
      · norm_num
      · exact le_refl 1
      · push_neg at h2
        exact h2
  · intro c vs hne
    cases vs with
    | nil => exact absurd rfl hne
    | cons v vs =>
      rw [List.foldl_cons]
      exact emotional_bias_gravity_fold_preserve vs _ (le_max_left _ _)

/-- Witness for emotional_bias_bounds_amended at a concrete context, vector
and nonempty vector sequence. -/
theorem emotional_bias_bounds_amended_witness :
    (1 ≤ (applyEmotionalBias (GrooveContext.mk 90 1 2 3 0 1 0 4 (-5) 25 0 : GrooveContext ℚ)
        (some (EmotionVector.mk 1 0 0 0 0))).harmonicGravity ∧
      0 ≤ (applyEmotionalBias (GrooveContext.mk 90 1 2 3 0 1 0 4 (-5) 25 0 : GrooveContext ℚ)
        (some (EmotionVector.mk 1 0 0 0 0))).grooveAmount ∧
      (applyEmotionalBias (GrooveContext.mk 90 1 2 3 0 1 0 4 (-5) 25 0 : GrooveContext ℚ)
        (some (EmotionVector.mk 1 0 0 0 0))).grooveAmount ≤ 1 ∧
      (0 ≤ (GrooveContext.mk 90 1 2 3 0 1 0 4 (-5) 25 0 : GrooveContext ℚ).jitter →
        0 ≤ (applyEmotionalBias (GrooveContext.mk 90 1 2 3 0 1 0 4 (-5) 25 0 : GrooveContext ℚ)
          (some (EmotionVector.mk 1 0 0 0 0))).jitter)) ∧
      1 ≤ (([EmotionVector.mk 1 0 0 0 0] : List (EmotionVector ℚ)).foldl
            (fun acc v => applyEmotionalBias acc (some v))
            (GrooveContext.mk 90 1 2 3 0 1 0 4 (-5) 25 0)).harmonicGravity :=
  And.intro
    (emotional_bias_bounds_amended.1 (GrooveContext.mk 90 1 2 3 0 1 0 4 (-5) 25 0)
      (EmotionVector.mk 1 0 0 0 0))
    (emotional_bias_bounds_amended.2 (GrooveContext.mk 90 1 2 3 0 1 0 4 (-5) 25 0)
      [EmotionVector.mk 1 0 0 0 0] (by simp))

-- ═══════════════════════════════════════════════════════════
-- grooveField.js - GROOVE FIELD ENGINE (Layer 2 basis functions)
-- ═══════════════════════════════════════════════════════════

lemma jsOr_ne_zero {α : Type} [LinearOrderedField α] (x : α) {d : α} (hd : d ≠ 0) :
    jsOr x d ≠ 0 := by
  unfold jsOr
  split
  · exact hd
  · assumption

lemma jsOr_nonneg {α : Type} [LinearOrderedField α] {x d : α} (hx : 0 ≤ x) (hd : 0 ≤ d) :
    0 ≤ jsOr x d := by
  unfold jsOr
  split
  · exact hd
  · exact hx

lemma jsMod_nonneg {α : Type} [LinearOrderedField α] [FloorRing α] {a n : α}
    (ha : 0 ≤ a) (hn : n ≠ 0) : 0 ≤ jsMod a n := by
  unfold jsMod jsTrunc
  have hmul : n * ((if 0 ≤ a / n then ⌊a / n⌋ else ⌈a / n⌉ : ℤ) : α) ≤ a := by
    split
    case isTrue h =>
      rcases hn.lt_or_lt with hneg | hpos
      · have h2 : a / n ≤ 0 := by
          rcases eq_or_lt_of_le ha with heq | hlt
          · rw [← heq, zero_div]
          · exact le_of_lt (div_neg_of_pos_of_neg hlt hneg)
        have h0 : a / n = 0 := le_antisymm h2 h
        rw [h0]
        simpa using ha
      · have hfl : ((⌊a / n⌋ : ℤ) : α) ≤ a / n := Int.floor_le _
        calc n * ((⌊a / n⌋ : ℤ) : α) ≤ n * (a / n) := mul_le_mul_of_nonneg_left hfl hpos.le
          _ = a := by rw [mul_comm, div_mul_cancel₀ a hn]
    case isFalse h =>
      push_neg at h
      rcases hn.lt_or_lt with hneg | hpos
      · have hcl : a / n ≤ ((⌈a / n⌉ : ℤ) : α) := Int.le_ceil _
        calc n * ((⌈a / n⌉ : ℤ) : α) ≤ n * (a / n) := mul_le_mul_of_nonpos_left hcl hneg.le
          _ = a := by rw [mul_comm, div_mul_cancel₀ a hn]
      · exfalso
        have hlt : a < 0 := by
          have hm := mul_neg_of_neg_of_pos h hpos
          rwa [div_mul_cancel₀ a hn] at hm
        exact absurd ha (not_le.2 hlt)
  linarith

/-- Computes power-curve drag displacement - computeDragCurve from
grooveField.js. Math.pow is modelled by real rpow (the engine only raises
nonnegative bases). -/
noncomputable def computeDragCurve (step stepsPerBar maxDragMs dragExponent channelScale
    bpmScale : ℝ) : ℝ :=
  if stepsPerBar ≤ 0 ∨ dragExponent ≤ 0 then 0
  else
    let p := step / stepsPerBar
    let scaledMax := maxDragMs * bpmScale
    scaledMax * p ^ dragExponent * channelScale

/-- Computes normalized logarithmic drift - computeLogDrift from
grooveField.js (with the `k <= 0` reassignment to 1). -/
noncomputable def computeLogDrift (step stepsPerBar maxDragMs k channelScale
    bpmScale : ℝ) : ℝ :=
  if stepsPerBar ≤ 0 then 0
  else
    let k2 := if k ≤ 0 then 1 else k
    let p := step / stepsPerBar
    let scaledMax := maxDragMs * bpmScale
    scaledMax * (Real.log (1 + p * k2) / Real.log (1 + k2)) * channelScale

/-- Applies velocity-phase coupling - velocityPhaseCoupling from
grooveField.js. The direction tag is a plain string, as in the source. -/
def velocityPhaseCoupling (velocity ratio : ℚ) (direction : String) : ℚ :=
  if direction = "none" then 0
  else
    let center : ℚ := 7/10
    let deviation := velocity - center
    let sign : ℚ := if direction = "inverted" then -1 else 1
    sign * deviation * ratio * 10

/-- The macro_drift config sub-object of a groove profile. -/
structure MacroDriftCfg where
  enabled : Bool
  amplitude_ms : ℚ
  period_bars : ℚ
  waveform : String
deriving DecidableEq

/-- Computes inter-bar macro-drift - computeMacroDrift from grooveField.js:
triangle waveform via the JS `%` remainder, default sine waveform. -/
noncomputable def computeMacroDrift (barIndex : ℚ) (macroDrift : Option MacroDriftCfg)
    (bpmScale : ℝ) : ℝ :=
  match macroDrift with
  | none => 0
  | some md =>
    if md.enabled = false then 0
    else
      let amplitude : ℝ := ((jsOr md.amplitude_ms 0 : ℚ) : ℝ) * bpmScale
      let period : ℚ := jsOr md.period_bars 4
      if period ≤ 0 then 0
      else if md.waveform = "triangle" then
        let phase : ℝ := (barIndex : ℝ) / (period : ℝ)
        amplitude * (2 * |2 * jsMod phase 1 - 1| - 1)
      else
        amplitude * Real.sin (2 * Real.pi * (barIndex : ℝ) / (period : ℝ))

/-- The temporal_state config sub-object of a groove profile (the fields read
by computeTensionState). -/
structure TemporalStateCfg where
  enabled : Bool
  tension_increment : ℚ
  elasticity_amplification : ℚ
  reset_period_bars : ℚ
  reset_mode : String
deriving DecidableEq

/-- The record returned by computeTensionState. -/
structure TensionState where
  tension : ℚ
  exponentMultiplier : ℚ
deriving DecidableEq

/-- Computes tension state for a given bar - computeTensionState from
grooveField.js. Both reset_mode branches of the source compute the same
`barIndex % resetPeriod`, and the branch is reproduced as written. -/
def computeTensionState (barIndex : ℚ) (temporalState : Option TemporalStateCfg) :
    TensionState :=
  match temporalState with
  | none => TensionState.mk 0 1
  | some ts =>
    if ts.enabled = false then TensionState.mk 0 1
    else
      let delta := jsOr ts.tension_increment (1/10)
      let kappa := jsOr ts.elasticity_amplification (3/10)
      let resetPeriod := jsOr ts.reset_period_bars 8
      let resetMode := jsOrS ts.reset_mode ("every_n_bars")
      let barInPhrase :=
        if resetMode = "every_n_bars" then jsMod barIndex resetPeriod
        else jsMod barIndex resetPeriod
      let tension := min 1 (barInPhrase * delta)
      TensionState.mk tension (1 + tension * kappa)

/-- C4 counterexample: for the enabled triangle macro-drift with amplitude 12
and period 4, the value at bar index 0 (phase 0) is +12, not -12: the
triangle maps phase 0 to +A, refuting the claimed phase map. -/
theorem macro_drift_triangle_phase_zero_cex :
    computeMacroDrift 0 (some (MacroDriftCfg.mk true 12 4 ("triangle"))) 1 = 12 ∧
      computeMacroDrift 0 (some (MacroDriftCfg.mk true 12 4 ("triangle"))) 1 ≠ -12 := by
  have h : computeMacroDrift 0 (some (MacroDriftCfg.mk true 12 4 ("triangle"))) 1 = 12 := by
    unfold computeMacroDrift
    norm_num [jsOr, jsMod, jsTrunc]
  exact ⟨h, by rw [h]; norm_num⟩

/-- C4 amended - Triangle macro-drift contract: for every enabled triangle
macro-drift config with period P > 0 and amplitude A (scaled by the bpm scale
argument s), computeMacroDrift returns A*s*(2*|2*((b/P) mod 1) - 1| - 1) at
bar b; this triangle maps phase 0 (bar index 0) to +A*s and phase 1/2 (bar
index P/2) to -A*s. -/
theorem macro_drift_triangle_amended (md : MacroDriftCfg) (b : ℚ) (s : ℝ)
    (he : md.enabled = true) (hw : md.waveform = "triangle") (hp : 0 < md.period_bars) :
    computeMacroDrift b (some md) s =
      ((md.amplitude_ms : ℚ) : ℝ) * s *
        (2 * |2 * jsMod ((b : ℝ) / ((md.period_bars : ℚ) : ℝ)) 1 - 1| - 1) ∧
      computeMacroDrift 0 (some md) s = ((md.amplitude_ms : ℚ) : ℝ) * s ∧
      computeMacroDrift (md.period_bars / 2) (some md) s =
        -(((md.amplitude_ms : ℚ) : ℝ) * s) := by
  have hP : (md.period_bars : ℚ) ≠ 0 := ne_of_gt hp
  have hgen : ∀ c : ℚ, computeMacroDrift c (some md) s =
      ((md.amplitude_ms : ℚ) : ℝ) * s *
        (2 * |2 * jsMod ((c : ℝ) / ((md.period_bars : ℚ) : ℝ)) 1 - 1| - 1) := by
    intro c
    unfold computeMacroDrift
    dsimp only
    rw [he, if_neg (by simp : ¬(true = false)), jsOr_self_zero, jsOr_of_ne 4 hP,
      if_neg (not_le.2 hp), if_pos hw]
  refine ⟨hgen b, ?_, ?_⟩
  · rw [hgen 0]
    have h0 : (((0 : ℚ) : ℝ) / ((md.period_bars : ℚ) : ℝ)) = 0 := by norm_num
    rw [h0]
    have hm0 : jsMod (0 : ℝ) 1 = 0 := by norm_num [jsMod, jsTrunc]
    rw [hm0, show (2 : ℝ) * 0 - 1 = -1 by norm_num, abs_neg, abs_one]
    ring
  · rw [hgen (md.period_bars / 2)]
    have hPr : ((md.period_bars : ℚ) : ℝ) ≠ 0 := by exact_mod_cast hP
    have hhalf : ((md.period_bars / 2 : ℚ) : ℝ) / ((md.period_bars : ℚ) : ℝ) = 1 / 2 := by
      push_cast
      field_simp
      ring
    rw [hhalf]
    have hm : jsMod ((1 : ℝ) / 2) 1 = 1 / 2 := by
      norm_num [jsMod, jsTrunc]
    rw [hm, show (2 : ℝ) * (1 / 2) - 1 = 0 by norm_num, abs_zero]
    ring

/-- Witness for macro_drift_triangle_amended at a concrete config. -/
theorem macro_drift_triangle_amended_witness :
    computeMacroDrift 3 (some (MacroDriftCfg.mk true 12 4 ("triangle"))) 1 =
      ((12 : ℚ) : ℝ) * 1 * (2 * |2 * jsMod (((3 : ℚ) : ℝ) / ((4 : ℚ) : ℝ)) 1 - 1| - 1) ∧
      computeMacroDrift 0 (some (MacroDriftCfg.mk true 12 4 ("triangle"))) 1 = ((12 : ℚ) : ℝ) * 1 ∧
      computeMacroDrift ((4 : ℚ) / 2) (some (MacroDriftCfg.mk true 12 4 ("triangle"))) 1 =
        -(((12 : ℚ) : ℝ) * 1) :=
  macro_drift_triangle_amended (MacroDriftCfg.mk true 12 4 ("triangle")) 3 1
    rfl rfl (by norm_num)

/-- C5 counterexample: an enabled temporal state with a negative
tension_increment produces a negative tension at bar 1, so the tension is not
always in [0,1] for arbitrary configurations. -/
theorem tension_negative_cex :
    (computeTensionState 1
        (some (TemporalStateCfg.mk true (-1) (3/10) 8 ("every_n_bars")))).tension < 0 := by
  unfold computeTensionState
  norm_num [jsOr, jsOrS, jsMod, jsTrunc, min_def]

/-- C5 amended - Tension bound: the tension returned by computeTensionState
never exceeds 1 for any bar index and any configuration; it also stays
nonnegative (hence in [0,1]) whenever the bar index is nonnegative and the
configured tension_increment is nonnegative (a negative increment, or a
negative bar index, can drive it below 0). -/
theorem tension_bound_amended (b : ℚ) (ts : Option TemporalStateCfg) :
    (computeTensionState b ts).tension ≤ 1 ∧
      (0 ≤ b → (∀ t ∈ ts, 0 ≤ t.tension_increment) →
        0 ≤ (computeTensionState b ts).tension) := by
  match ts with
  | none =>
    exact ⟨by norm_num [computeTensionState], fun _ _ => by norm_num [computeTensionState]⟩
  | some t =>
    unfold computeTensionState
    dsimp only
    by_cases he : t.enabled = false
    · rw [if_pos he]
      exact ⟨by norm_num, fun _ _ => le_refl 0⟩
    · rw [if_neg he]
      dsimp only
      rw [ite_self]
      constructor
      · exact min_le_left _ _
      · intro hb hinc
        apply le_min (by norm_num)
        apply mul_nonneg
        · exact jsMod_nonneg hb (jsOr_ne_zero _ (by norm_num))
        · exact jsOr_nonneg (hinc t (by rfl)) (by norm_num)

/-- Witness for tension_bound_amended at a concrete bar and config. -/
theorem tension_bound_amended_witness :
    (computeTensionState 3
        (some (TemporalStateCfg.mk true (1/10) (3/10) 8 ("every_n_bars")))).tension ≤ 1 ∧
      0 ≤ (computeTensionState 3
        (some (TemporalStateCfg.mk true (1/10) (3/10) 8 ("every_n_bars")))).tension :=
  And.intro
    (tension_bound_amended 3 (some (TemporalStateCfg.mk true (1/10) (3/10) 8 ("every_n_bars")))).1
    ((tension_bound_amended 3
        (some (TemporalStateCfg.mk true (1/10) (3/10) 8 ("every_n_bars")))).2
      (by norm_num)
      (by
        intro t ht
        rw [Option.mem_def, Option.some.injEq] at ht
        rw [← ht]
        norm_num))

-- ═══════════════════════════════════════════════════════════
-- hardwareEmulation.js - PPQN rounding (Layer 4)
-- ═══════════════════════════════════════════════════════════

/-- Rounds a timestamp to the nearest PPQN pulse - roundToPPQN from the
hardware-emulation layer. Math.round rounds half toward positive infinity,
exactly like Mathlib round (floor of x + 1/2). -/
noncomputable def roundToPPQN (timeSeconds : ℝ) (bpm ppqn : ℚ) : ℝ :=
  if ppqn ≤ 0 ∨ bpm ≤ 0 then timeSeconds
  else
    let secondsPerPulse : ℝ := 60 / ((bpm : ℝ) * (ppqn : ℝ))
    ((round (timeSeconds / secondsPerPulse) : ℤ) : ℝ) * secondsPerPulse

-- ═══════════════════════════════════════════════════════════
-- grooveEngine.js - SeededRNG (Mulberry32 + Box-Muller)
-- ═══════════════════════════════════════════════════════════

/-- One step of the Mulberry32 generator - SeededRNG.next from
grooveEngine.js. The mutable 32-bit state is modelled as the unsigned bit
pattern (a natural below 2^32) and passed explicitly; JS `| 0` truncation is
the reduction mod 2^32 of that pattern, Math.imul is multiplication mod 2^32,
`>>>` is the logical shift on the pattern. Returns the uniform draw in [0,1)
and the updated state. -/
def rngNext (s : ℕ) : ℚ × ℕ :=
  let s1 := (s + 0x6D2B79F5) % 2 ^ 32
  let t1 := ((s1 ^^^ (s1 >>> 15)) * (1 ||| s1)) % 2 ^ 32
  let t2 := ((t1 + ((t1 ^^^ (t1 >>> 7)) * (61 ||| t1)) % 2 ^ 32) % 2 ^ 32) ^^^ t1
  let out := t2 ^^^ (t2 >>> 14)
  ((out : ℚ) / 4294967296, s1)

/-- One Box-Muller Gaussian draw - SeededRNG.gaussian from grooveEngine.js:
two consecutive uniforms, the first floored at 1e-10 to avoid log 0. -/
noncomputable def rngGaussian (s : ℕ) : ℝ × ℕ :=
  let u1 := rngNext s
  let u2 := rngNext u1.2
  let u1c : ℚ := max (1 / 10 ^ 10) u1.1
  (Real.sqrt (-2 * Real.log ((u1c : ℚ) : ℝ)) * Real.cos (2 * Real.pi * ((u2.1 : ℚ) : ℝ)), u2.2)

lemma rngNext_lt_one (s : ℕ) : (rngNext s).1 < 1 := by
  unfold rngNext
  dsimp only
  rw [div_lt_one (by norm_num)]
  have hmask : ∀ m : ℕ, m % 2 ^ 32 < 2 ^ 32 := fun m => Nat.mod_lt m (by norm_num)
  set s1 := (s + 0x6D2B79F5) % 2 ^ 32 with hs1
  set t1 := ((s1 ^^^ (s1 >>> 15)) * (1 ||| s1)) % 2 ^ 32 with ht1
  set t2 := ((t1 + ((t1 ^^^ (t1 >>> 7)) * (61 ||| t1)) % 2 ^ 32) % 2 ^ 32) ^^^ t1 with ht2
  have h2 : t2 < 2 ^ 32 := Nat.xor_lt_two_pow (hmask _) (hmask _)
  have h3 : t2 >>> 14 < 2 ^ 32 :=
    lt_of_le_of_lt (by rw [Nat.shiftRight_eq_div_pow]; exact Nat.div_le_self _ _) h2
  have hout : t2 ^^^ (t2 >>> 14) < 2 ^ 32 := Nat.xor_lt_two_pow h2 h3
  exact_mod_cast hout

-- ═══════════════════════════════════════════════════════════
-- grooveEngine.js - profile model, channel map, feel limits
-- ═══════════════════════════════════════════════════════════

/-- Per-channel configuration from a groove profile (channel_offsets entry).
The all-zero record also models the empty object `{}`: every numeric field
the engine reads from it goes through a falsy check or a `||` fallback, under
which an absent field and a 0 behave identically. -/
structure ChannelCfg where
  timing_offset_ms : ℚ
  velocity_variance : ℚ
  jitter_ms : ℚ
  ghost_note_probability : ℚ
  ghost_note_attenuation_db : ℚ
deriving DecidableEq

/-- The empty channel configuration `{}`. -/
def defaultChannelCfg : ChannelCfg := ChannelCfg.mk 0 0 0 0 0

/-- CHANNEL_MAP from grooveEngine.js. -/
def CHANNEL_MAP : List (String × String) :=
  [("kick", "kick"), ("snare", "snare"), ("hihat_closed", "hihat"), ("hihat_open", "hihat"),
   ("clap", "snare"), ("rim", "hihat"), ("tom", "kick"), ("crash", "hihat"), ("bass", "bass"),
   ("piano", "keys"), ("strings", "keys"), ("lead", "keys"), ("pluck", "keys")]

/-- resolveChannel from grooveEngine.js: CHANNEL_MAP[channelId] || channelId. -/
def resolveChannel (channelId : String) : String :=
  (CHANNEL_MAP.lookup channelId).getD channelId

/-- One entry of MAX_OFFSET_BY_FEEL. -/
structure FeelLimits where
  push : ℚ
  drag : ℚ
deriving DecidableEq

/-- MAX_OFFSET_BY_FEEL from grooveEngine.js. -/
def MAX_OFFSET_BY_FEEL : List (String × FeelLimits) :=
  [("on_top", FeelLimits.mk (-8) 8), ("laid_back", FeelLimits.mk (-5) 25),
   ("ahead", FeelLimits.mk (-20) 5), ("deep_pocket", FeelLimits.mk (-3) 35)]

/-- The drag_curve config sub-object (fields read by assembleGrooveContext). -/
structure DragCurveCfg where
  enabled : Bool
  drift_mode : String
  max_drag_ms : ℚ
  drag_exponent : ℚ
  log_k : ℚ
  per_channel_scaling : List (String × ℚ)
deriving DecidableEq

/-- The temporal_coupling config sub-object. -/
structure TemporalCouplingCfg where
  enabled : Bool
  velocity_phase_ratio : ℚ
  direction : String
deriving DecidableEq

/-- The harmonic_gravity config sub-object. -/
structure HarmonicGravityCfg where
  enabled : Bool
  gravity_by_mode : List (String × ℚ)
deriving DecidableEq

/-- The phrase_constraints config sub-object (the field read by the engine). -/
structure PhraseConstraintsCfg where
  max_accumulated_phase_error_ms : ℚ
deriving DecidableEq

/-- The hardware_emulation config sub-object (the field read by applyGroove). -/
structure HardwareEmulationCfg where
  ppqn : ℚ
deriving DecidableEq

/-- A groove profile: the fields of the profile object that the displacement
pipeline of grooveEngine.js reads. Optional sub-objects are Options; metadata
fields the pipeline never reads (groove_type, randomization_seed, snap mode,
performer_capture, ...) are omitted from the model. -/
structure GrooveProfile where
  bpm : ℚ
  groove_amount : Option ℚ
  feel_bias : String
  steps_per_bar : ℚ
  channel_offsets : String → Option ChannelCfg
  drag_curve : Option DragCurveCfg
  temporal_coupling : Option TemporalCouplingCfg
  harmonic_gravity : Option HarmonicGravityCfg
  macro_drift : Option MacroDriftCfg
  phrase_constraints : Option PhraseConstraintsCfg
  temporal_state : Option TemporalStateCfg
  hardware_emulation : Option HardwareEmulationCfg
  emotion_vector : Option (EmotionVector ℚ)

/-- The channel lookup `(grooveProfile.channel_offsets || {})[canonical] || {}`
performed by both assembleGrooveContext and applyGroove. -/
def channelCfgOf (grooveProfile : GrooveProfile) (canonicalChannel : String) : ChannelCfg :=
  (grooveProfile.channel_offsets canonicalChannel).getD defaultChannelCfg

/-- Coercion of a stored (rational) emotion vector into the real-valued
context arithmetic. -/
def emotionVectorToReal (v : EmotionVector ℚ) : EmotionVector ℝ :=
  EmotionVector.mk (v.loneliness : ℝ) (v.tension : ℝ) (v.admiration : ℝ) (v.defiance : ℝ)
    (v.calm : ℝ)

/-- The jitter block of assembleGrooveContext: when an RNG is present and
sigma = jitter_ms || 0 is positive, draw one Gaussian and scale it; the
updated RNG state is threaded out (the source mutates the rng object). -/
noncomputable def jitterStep (jitterMs : ℚ) (rng : Option ℕ) : ℝ × Option ℕ :=
  match rng with
  | none => (0, none)
  | some s =>
    let sigma := jsOr jitterMs 0
    if sigma > 0 then
      let g := rngGaussian s
      ((sigma : ℚ) * g.1, some g.2)
    else (0, some s)

/-- CONTEXT ASSEMBLY - assembleGrooveContext from grooveEngine.js. Builds the
real-valued coefficient context (all basis functions called with bpmScale = 1)
and threads the RNG state consumed by the jitter draw. The JS null check on
baseVelocity is dropped: the model always passes a velocity. -/
noncomputable def assembleGrooveContext (step : ℚ) (channelId : String)
    (grooveProfile : GrooveProfile) (barIndex : ℚ) (rng : Option ℕ) (scaleMode : String)
    (baseVelocity : ℚ) : GrooveContext ℝ × Option ℕ :=
  let bpm := jsOr grooveProfile.bpm 90
  let stepsPerBar := jsOr grooveProfile.steps_per_bar 16
  let stepInBar := jsMod step stepsPerBar
  let canonicalChannel := resolveChannel channelId
  let channelCfg := channelCfgOf grooveProfile canonicalChannel
  let linearOffset := jsOr channelCfg.timing_offset_ms 0
  let curvature : ℝ :=
    match grooveProfile.drag_curve with
    | none => 0
    | some dc =>
      if dc.enabled = false then 0
      else
        let channelScale := (dc.per_channel_scaling.lookup canonicalChannel).getD 1
        let tensionState := computeTensionState barIndex grooveProfile.temporal_state
        let effectiveExponent := jsOr dc.drag_exponent (5/4) * tensionState.exponentMultiplier
        if dc.drift_mode = "log" then
          computeLogDrift ((stepInBar : ℚ) : ℝ) ((stepsPerBar : ℚ) : ℝ)
            ((jsOr dc.max_drag_ms 25 : ℚ) : ℝ) ((jsOr dc.log_k 4 : ℚ) : ℝ)
            ((channelScale : ℚ) : ℝ) 1
        else
          computeDragCurve ((stepInBar : ℚ) : ℝ) ((stepsPerBar : ℚ) : ℝ)
            ((jsOr dc.max_drag_ms 25 : ℚ) : ℝ) ((effectiveExponent : ℚ) : ℝ)
            ((channelScale : ℚ) : ℝ) 1
  let phaseCoupling : ℚ :=
    match grooveProfile.temporal_coupling with
    | none => 0
    | some tc =>
      if tc.enabled = false then 0
      else
        velocityPhaseCoupling baseVelocity (jsOr tc.velocity_phase_ratio (-1))
          (jsOrS tc.direction ("natural"))
  let harmonicGravity : ℚ :=
    match grooveProfile.harmonic_gravity with
    | none => 1
    | some hg =>
      if hg.enabled = false then 1
      else (hg.gravity_by_mode.lookup (jsOrS scaleMode ("minor"))).getD 1
  let macroDrift : ℝ :=
    match grooveProfile.macro_drift with
    | none => 0
    | some mdc =>
      if mdc.enabled = false then 0
      else computeMacroDrift barIndex (some mdc) 1
  let jitterPair := jitterStep channelCfg.jitter_ms rng
  let feelLimits :=
    (MAX_OFFSET_BY_FEEL.lookup (jsOrS grooveProfile.feel_bias ("laid_back"))).getD
      (FeelLimits.mk (-5) 25)
  let maxPhaseErrorMs : ℚ :=
    match grooveProfile.phrase_constraints with
    | none => 0
    | some pc => jsOr pc.max_accumulated_phase_error_ms 0
  (GrooveContext.mk ((bpm : ℚ) : ℝ) ((grooveProfile.groove_amount.getD 1 : ℚ) : ℝ)
    ((linearOffset : ℚ) : ℝ) curvature ((phaseCoupling : ℚ) : ℝ) ((harmonicGravity : ℚ) : ℝ)
    macroDrift jitterPair.1 ((feelLimits.push : ℚ) : ℝ) ((feelLimits.drag : ℚ) : ℝ)
    ((maxPhaseErrorMs : ℚ) : ℝ), jitterPair.2)

/-- The velocity-humanization block of applyGroove: when velocity_variance is
truthy and an RNG is present, one Gaussian modulates the base velocity,
clamped to [0.05, 1]. -/
noncomputable def humanizeStep (variance baseVelocity : ℚ) (rng : Option ℕ) : ℝ × Option ℕ :=
  if variance ≠ 0 then
    match rng with
    | none => (((baseVelocity : ℚ) : ℝ), none)
    | some s =>
      let g := rngGaussian s
      (max (5 / 100) (min 1 (((baseVelocity : ℚ) : ℝ) + g.1 * ((variance : ℚ) : ℝ))), some g.2)
  else (((baseVelocity : ℚ) : ℝ), rng)

/-- The ghost-note block of applyGroove: when ghost_note_probability is truthy
and an RNG is present, one uniform draw is consumed; if it falls below the
probability, the velocity is re-derived from the base velocity attenuated by
10^((attenuation_db || -12)/20). shouldPlay is never cleared. -/
noncomputable def ghostStep (ghostProb attenuationDb baseVelocity : ℚ) (velocity : ℝ)
    (rng : Option ℕ) : ℝ × Option ℕ :=
  if ghostProb ≠ 0 then
    match rng with
    | none => (velocity, none)
    | some s =>
      let u := rngNext s
      if u.1 < ghostProb then
        (((baseVelocity : ℚ) : ℝ) * (10 : ℝ) ^ (((jsOr attenuationDb (-12) : ℚ) : ℝ) / 20),
          some u.2)
      else (velocity, some u.2)
  else (velocity, rng)

/-- The scheduled-event record returned by applyGroove. -/
structure GrooveResult where
  time : ℝ
  velocity : ℝ
  shouldPlay : Bool

/-- MAIN GROOVE PIPELINE - applyGroove from grooveEngine.js: early exit on a
missing profile or zero groove amount, context assembly, single emotional-bias
injection, kernel evaluation, velocity humanization, ghost-note processing,
PPQN rounding gated by ppqn > 0, and the final clamp of time to >= 0. -/
noncomputable def applyGroove (gridTime : ℝ) (step : ℚ) (channelId : String)
    (grooveProfile : Option GrooveProfile) (barIndex : ℚ) (rng : Option ℕ)
    (scaleMode : String) (baseVelocity : ℚ) : GrooveResult :=
  match grooveProfile with
  | none => GrooveResult.mk gridTime ((baseVelocity : ℚ) : ℝ) true
  | some p =>
    if p.groove_amount.getD 1 = 0 then GrooveResult.mk gridTime ((baseVelocity : ℚ) : ℝ) true
    else
      let bpm := jsOr p.bpm 90
      let canonicalChannel := resolveChannel channelId
      let channelCfg := channelCfgOf p canonicalChannel
      let assembled := assembleGrooveContext step channelId p barIndex rng scaleMode baseVelocity
      let biasedCtx := applyEmotionalBias assembled.1 (p.emotion_vector.map emotionVectorToReal)
      let offsetMs := computeGrooveDisplacement biasedCtx
      let velPair := humanizeStep channelCfg.velocity_variance baseVelocity assembled.2
      let ghostPair := ghostStep channelCfg.ghost_note_probability
        channelCfg.ghost_note_attenuation_db baseVelocity velPair.1 velPair.2
      let finalTime := gridTime + offsetMs / 1000
      let ppqn : ℚ :=
        match p.hardware_emulation with
        | none => 0
        | some hw => jsOr hw.ppqn 0
      let finalTime2 := if ppqn > 0 then roundToPPQN finalTime bpm ppqn else finalTime
      GrooveResult.mk (max 0 finalTime2) ghostPair.1 true

/-- C9 - Early-exit identity: for every grid time, step, channel, bar, RNG,
scale mode and base velocity, a missing profile or a profile whose
groove_amount (with the JS `?? 1.0` fallback) is zero yields the untouched
event: time = grid time, velocity = base velocity, should_play = true,
regardless of every other profile field. -/
theorem apply_groove_early_exit (gridTime : ℝ) (step : ℚ) (channelId : String)
    (grooveProfile : Option GrooveProfile) (barIndex : ℚ) (rng : Option ℕ)
    (scaleMode : String) (baseVelocity : ℚ)
    (h : grooveProfile = none ∨
      ∃ p, grooveProfile = some p ∧ p.groove_amount.getD 1 = 0) :
    applyGroove gridTime step channelId grooveProfile barIndex rng scaleMode baseVelocity =
      GrooveResult.mk gridTime ((baseVelocity : ℚ) : ℝ) true := by
  rcases h with h | ⟨p, rfl, hp⟩
  · rw [h]
    rfl
  · unfold applyGroove
    dsimp only
    rw [if_pos hp]

/-- Witness for apply_groove_early_exit on an absent profile. -/
theorem apply_groove_early_exit_witness :
    applyGroove (1/2) 4 ("kick") none 0 none ("minor") (9/10) =
      GrooveResult.mk (1/2) (((9/10 : ℚ) : ℚ) : ℝ) true :=
  apply_groove_early_exit (1/2) 4 ("kick") none 0 none ("minor") (9/10) (Or.inl rfl)

-- ═══════════════════════════════════════════════════════════
-- C7 - ghost-note attenuation monotonicity
-- ═══════════════════════════════════════════════════════════

/-- Claim-side scaffolding for C7: the profile obtained from p by changing
only the ghost_note_attenuation_db of the canonical channel under test. -/
def updGhostDb (p : GrooveProfile) (channelId : String) (db : ℚ) : GrooveProfile :=
  { p with channel_offsets := fun c =>
      if c = resolveChannel channelId then
        (p.channel_offsets c).map (fun cfg => { cfg with ghost_note_attenuation_db := db })
      else p.channel_offsets c }

lemma updGhostDb_bpm (p : GrooveProfile) (ch : String) (db : ℚ) :
    (updGhostDb p ch db).bpm = p.bpm := rfl

lemma updGhostDb_groove_amount (p : GrooveProfile) (ch : String) (db : ℚ) :
    (updGhostDb p ch db).groove_amount = p.groove_amount := rfl

lemma updGhostDb_feel_bias (p : GrooveProfile) (ch : String) (db : ℚ) :
    (updGhostDb p ch db).feel_bias = p.feel_bias := rfl

lemma updGhostDb_steps_per_bar (p : GrooveProfile) (ch : String) (db : ℚ) :
    (updGhostDb p ch db).steps_per_bar = p.steps_per_bar := rfl

lemma updGhostDb_drag_curve (p : GrooveProfile) (ch : String) (db : ℚ) :
    (updGhostDb p ch db).drag_curve = p.drag_curve := rfl

lemma updGhostDb_temporal_coupling (p : GrooveProfile) (ch : String) (db : ℚ) :
    (updGhostDb p ch db).temporal_coupling = p.temporal_coupling := rfl

lemma updGhostDb_harmonic_gravity (p : GrooveProfile) (ch : String) (db : ℚ) :
    (updGhostDb p ch db).harmonic_gravity = p.harmonic_gravity := rfl

lemma updGhostDb_macro_drift (p : GrooveProfile) (ch : String) (db : ℚ) :
    (updGhostDb p ch db).macro_drift = p.macro_drift := rfl

lemma updGhostDb_phrase_constraints (p : GrooveProfile) (ch : String) (db : ℚ) :
    (updGhostDb p ch db).phrase_constraints = p.phrase_constraints := rfl

lemma updGhostDb_temporal_state (p : GrooveProfile) (ch : String) (db : ℚ) :
    (updGhostDb p ch db).temporal_state = p.temporal_state := rfl

lemma updGhostDb_hardware_emulation (p : GrooveProfile) (ch : String) (db : ℚ) :
    (updGhostDb p ch db).hardware_emulation = p.hardware_emulation := rfl

lemma updGhostDb_emotion_vector (p : GrooveProfile) (ch : String) (db : ℚ) :
    (updGhostDb p ch db).emotion_vector = p.emotion_vector := rfl

lemma updGhostDb_cfg_fields (p : GrooveProfile) (ch : String) (db : ℚ) (c : String) :
    (channelCfgOf (updGhostDb p ch db) c).timing_offset_ms =
        (channelCfgOf p c).timing_offset_ms ∧
      (channelCfgOf (updGhostDb p ch db) c).jitter_ms = (channelCfgOf p c).jitter_ms := by
  unfold channelCfgOf updGhostDb
  dsimp only
  split
  · cases h : p.channel_offsets c <;> simp [h, defaultChannelCfg]
  · exact ⟨rfl, rfl⟩

lemma channelCfgOf_updGhostDb_some (p : GrooveProfile) (ch : String) (db : ℚ)
    {cfg : ChannelCfg} (hcfg : p.channel_offsets (resolveChannel ch) = some cfg) :
    channelCfgOf (updGhostDb p ch db) (resolveChannel ch) =
      { cfg with ghost_note_attenuation_db := db } := by
  unfold channelCfgOf updGhostDb
  dsimp only
  rw [if_pos rfl, hcfg]
  rfl

lemma channelCfgOf_updGhostDb_none (p : GrooveProfile) (ch : String) (db : ℚ)
    (hcfg : p.channel_offsets (resolveChannel ch) = none) :
    channelCfgOf (updGhostDb p ch db) (resolveChannel ch) = defaultChannelCfg := by
  unfold channelCfgOf updGhostDb
  dsimp only
  rw [if_pos rfl, hcfg]
  rfl

lemma assemble_updGhostDb (step : ℚ) (channelId : String) (p : GrooveProfile) (db : ℚ)
    (barIndex : ℚ) (rng : Option ℕ) (scaleMode : String) (baseVelocity : ℚ) :
    assembleGrooveContext step channelId (updGhostDb p channelId db) barIndex rng scaleMode
        baseVelocity =
      assembleGrooveContext step channelId p barIndex rng scaleMode baseVelocity := by
  obtain ⟨h1, h2⟩ := updGhostDb_cfg_fields p channelId db (resolveChannel channelId)
  unfold assembleGrooveContext
  dsimp only
  rw [updGhostDb_bpm, updGhostDb_steps_per_bar, updGhostDb_groove_amount,
    updGhostDb_drag_curve, updGhostDb_temporal_state, updGhostDb_temporal_coupling,
    updGhostDb_harmonic_gravity, updGhostDb_macro_drift, updGhostDb_feel_bias,
    updGhostDb_phrase_constraints, h1, h2]

lemma ghostStep_velocity_mono (ghostProb db1 db2 baseVelocity : ℚ) (velocity : ℝ)
    (rng : Option ℕ) (hv0 : 0 ≤ baseVelocity) (hdb : db1 < db2) (hdb2 : db2 ≠ 0) :
    (ghostStep ghostProb db1 baseVelocity velocity rng).1 ≤
      (ghostStep ghostProb db2 baseVelocity velocity rng).1 := by
  have heff : jsOr db1 (-12) ≤ jsOr db2 (-12) := by
    rw [jsOr_of_ne (-12) hdb2]
    by_cases h1 : db1 = 0
    · rw [h1, jsOr_zero_left]
      rw [h1] at hdb
      linarith
    · rw [jsOr_of_ne (-12) h1]
      exact hdb.le
  unfold ghostStep
  by_cases hp : ghostProb ≠ 0
  · rw [if_pos hp, if_pos hp]
    cases rng with
    | none => exact le_refl _
    | some s =>
      dsimp only
      by_cases hu : (rngNext s).1 < ghostProb
      · rw [if_pos hu, if_pos hu]
        dsimp only
        refine mul_le_mul_of_nonneg_left ?_ (by exact_mod_cast hv0)
        rw [Real.rpow_le_rpow_left_iff (by norm_num : (1 : ℝ) < 10)]
        have hc : ((jsOr db1 (-12) : ℚ) : ℝ) ≤ ((jsOr db2 (-12) : ℚ) : ℝ) := by
          exact_mod_cast heff
        linarith
      · rw [if_neg hu, if_neg hu]
  · rw [if_neg hp, if_neg hp]

/-- C7 amended - Ghost-note attenuation monotonicity: with the same base
velocity in [0,1] and the same RNG state, and two attenuation settings
db1 < db2 where db2 is not the falsy value 0 (a zero attenuation_db falls
back to the -12 default, which is the one break in monotonicity), the
velocity returned by applyGroove for db1 never exceeds the one for db2. -/
theorem ghost_attenuation_monotone_amended (gridTime : ℝ) (step : ℚ) (channelId : String)
    (p : GrooveProfile) (barIndex : ℚ) (rng : Option ℕ) (scaleMode : String)
    (baseVelocity : ℚ) (db1 db2 : ℚ) (hv0 : 0 ≤ baseVelocity) (_hv1 : baseVelocity ≤ 1)
    (hdb : db1 < db2) (hdb2 : db2 ≠ 0) :
    (applyGroove gridTime step channelId (some (updGhostDb p channelId db1)) barIndex rng
        scaleMode baseVelocity).velocity ≤
      (applyGroove gridTime step channelId (some (updGhostDb p channelId db2)) barIndex rng
        scaleMode baseVelocity).velocity := by
  unfold applyGroove
  dsimp only
  rw [updGhostDb_groove_amount p channelId db1, updGhostDb_groove_amount p channelId db2]
  by_cases hamt : p.groove_amount.getD 1 = 0
  · rw [if_pos hamt, if_pos hamt]
  · rw [if_neg hamt, if_neg hamt]
    dsimp only
    rw [assemble_updGhostDb step channelId p db1 barIndex rng scaleMode baseVelocity,
      assemble_updGhostDb step channelId p db2 barIndex rng scaleMode baseVelocity]
    cases hcfg : p.channel_offsets (resolveChannel channelId) with
    | none =>
      rw [channelCfgOf_updGhostDb_none p channelId db1 hcfg,
        channelCfgOf_updGhostDb_none p channelId db2 hcfg]
    | some cfg =>
      rw [channelCfgOf_updGhostDb_some p channelId db1 hcfg,
        channelCfgOf_updGhostDb_some p channelId db2 hcfg]
      dsimp only
      exact ghostStep_velocity_mono cfg.ghost_note_probability db1 db2 baseVelocity _ _
        hv0 hdb hdb2

/-- A concrete profile for the C7 counterexample and witness: the kick channel
carries ghost_note_probability 1 and no jitter or velocity variance. -/
def ghostCexProfile : GrooveProfile :=
  GrooveProfile.mk 90 (some 1) "laid_back" 16
    (fun c => if c = "kick" then some (ChannelCfg.mk 0 0 0 1 0) else none)
    none none none none none none none none

lemma applyGroove_velocity_char (gridTime : ℝ) (step : ℚ) (channelId : String)
    (p : GrooveProfile) (barIndex : ℚ) (rng : Option ℕ) (scaleMode : String)
    (baseVelocity : ℚ) (hamt : ¬ p.groove_amount.getD 1 = 0) :
    (applyGroove gridTime step channelId (some p) barIndex rng scaleMode
        baseVelocity).velocity =
      (ghostStep (channelCfgOf p (resolveChannel channelId)).ghost_note_probability
        (channelCfgOf p (resolveChannel channelId)).ghost_note_attenuation_db baseVelocity
        (humanizeStep (channelCfgOf p (resolveChannel channelId)).velocity_variance
          baseVelocity
          (assembleGrooveContext step channelId p barIndex rng scaleMode baseVelocity).2).1
        (humanizeStep (channelCfgOf p (resolveChannel channelId)).velocity_variance
          baseVelocity
          (assembleGrooveContext step channelId p barIndex rng scaleMode
            baseVelocity).2).2).1 := by
  unfold applyGroove
  dsimp only
  rw [if_neg hamt]

lemma ghostCexCfg : channelCfgOf ghostCexProfile (resolveChannel ("kick")) =
    ChannelCfg.mk 0 0 0 1 0 := rfl

lemma ghostCexAmt (db : ℚ) :
    ¬ (updGhostDb ghostCexProfile ("kick") db).groove_amount.getD 1 = 0 := by
  rw [updGhostDb_groove_amount]
  simp [ghostCexProfile]

lemma ghostCexUpdCfg (db : ℚ) :
    channelCfgOf (updGhostDb ghostCexProfile ("kick") db) (resolveChannel ("kick")) =
      ChannelCfg.mk 0 0 0 1 db := by
  rw [@channelCfgOf_updGhostDb_some ghostCexProfile ("kick") db (ChannelCfg.mk 0 0 0 1 0) rfl]

lemma ghostCexA2 : (assembleGrooveContext 0 ("kick") ghostCexProfile 0 (some 1) "minor"
    (9/10)).2 = some 1 := by
  unfold assembleGrooveContext
  dsimp only
  rw [ghostCexCfg]
  norm_num [jitterStep, jsOr]

lemma ghostCexHum1 : (humanizeStep 0 (9/10) (some 1)).1 = ((9/10 : ℚ) : ℝ) := by
  norm_num [humanizeStep]

lemma ghostCexHum2 : (humanizeStep 0 (9/10) (some 1)).2 = some 1 := by
  norm_num [humanizeStep]

lemma ghostCexGhost (db : ℚ) (v : ℝ) :
    (ghostStep 1 db (9/10) v (some 1)).1 =
      ((9/10 : ℚ) : ℝ) * (10 : ℝ) ^ (((jsOr db (-12) : ℚ) : ℝ) / 20) := by
  unfold ghostStep
  rw [if_pos (by norm_num : (1 : ℚ) ≠ 0)]
  dsimp only
  rw [if_pos (rngNext_lt_one 1)]

lemma ghostCex_velocity_eval (db : ℚ) :
    (applyGroove 0 0 ("kick") (some (updGhostDb ghostCexProfile ("kick") db)) 0 (some 1) "minor"
        (9/10)).velocity =
      ((9/10 : ℚ) : ℝ) * (10 : ℝ) ^ (((jsOr db (-12) : ℚ) : ℝ) / 20) := by
  rw [applyGroove_velocity_char 0 0 ("kick") (updGhostDb ghostCexProfile ("kick") db) 0 (some 1)
    "minor" (9/10) (ghostCexAmt db)]
  rw [ghostCexUpdCfg db]
  dsimp only
  rw [assemble_updGhostDb 0 ("kick") ghostCexProfile db 0 (some 1) "minor" (9/10), ghostCexA2,
    ghostCexHum1, ghostCexHum2]
  exact ghostCexGhost db _

/-- C7 counterexample: with the ghost branch firing, lowering attenuation_db
from 0 to -6 RAISES the resulting velocity, because a 0 dB setting is falsy
and falls back to the -12 default: monotonicity fails at db2 = 0. -/
theorem ghost_attenuation_nonmonotone_cex :
    (applyGroove 0 0 ("kick") (some (updGhostDb ghostCexProfile ("kick") 0)) 0 (some 1) "minor"
        (9/10)).velocity <
      (applyGroove 0 0 ("kick") (some (updGhostDb ghostCexProfile ("kick") (-6))) 0 (some 1)
        "minor" (9/10)).velocity := by
  rw [ghostCex_velocity_eval 0, ghostCex_velocity_eval (-6)]
  have h0 : ((jsOr (0 : ℚ) (-12) : ℚ) : ℝ) = -12 := by norm_num [jsOr]
  have h6 : ((jsOr (-6 : ℚ) (-12) : ℚ) : ℝ) = -6 := by norm_num [jsOr]
  rw [h0, h6]
  refine mul_lt_mul_of_pos_left ?_ (by norm_num)
  rw [Real.rpow_lt_rpow_left_iff (by norm_num : (1 : ℝ) < 10)]
  norm_num

/-- Witness for ghost_attenuation_monotone_amended at a concrete profile with
attenuations -18 < -6. -/
theorem ghost_attenuation_monotone_amended_witness :
    (applyGroove 0 0 ("kick") (some (updGhostDb ghostCexProfile ("kick") (-18))) 0 (some 1)
        "minor" (9/10)).velocity ≤
      (applyGroove 0 0 ("kick") (some (updGhostDb ghostCexProfile ("kick") (-6))) 0 (some 1)
        "minor" (9/10)).velocity :=
  ghost_attenuation_monotone_amended 0 0 ("kick") ghostCexProfile 0 (some 1) "minor" (9/10)
    (-18) (-6) (by norm_num) (by norm_num) (by norm_num) (by norm_num)

-- ═══════════════════════════════════════════════════════════
-- grooveEngine.js - stableStringify / computeGrooveHash (C8)
-- ═══════════════════════════════════════════════════════════

/-- A JSON value as handled by stableStringify: null, booleans, numbers,
strings, arrays, and objects as ordered key-value lists (a JS object
iterated by Object.keys). JS objects can never hold two identical keys;
lists whose key sets are duplicate-free are singled out by wfKeys below. -/
inductive JValue where
  | null : JValue
  | bool (b : Bool) : JValue
  | num (q : ℚ) : JValue
  | str (s : String) : JValue
  | arr (items : List JValue) : JValue
  | obj (fields : List (String × JValue)) : JValue

/-- JSON escaping of one character, as JSON.stringify performs on strings
(backslash, quote and the common control characters; other characters pass
through unchanged in the model). -/
def jsonEscapeChar (c : Char) : String :=
  if c = '\\' then "\\\\"
  else if c = '"' then "\\\""
  else if c = '\n' then "\\n"
  else if c = '\r' then "\\r"
  else if c = '\t' then "\\t"
  else String.singleton c

/-- JSON.stringify of a string: quoted and escaped. -/
def jsonEscape (s : String) : String :=
  "\"" ++ String.join (s.toList.map jsonEscapeChar) ++ "\""

/-- JSON.stringify of a number. The claim under study only needs equal
numbers to serialize equally, so the exact decimal formatting of the host
serializer is not modelled and the canonical rational rendering is used. -/
def jsonNum (q : ℚ) : String := toString q

/-- The key comparator used on the model side of Object.keys(obj).sort():
pairs ordered by their key string. -/
def keyLe {β : Type} (a b : String × β) : Prop := a.1 ≤ b.1

instance {β : Type} : DecidableRel (@keyLe β) :=
  fun a b => inferInstanceAs (Decidable (a.1 ≤ b.1))

instance {β : Type} : IsTotal (String × β) keyLe := ⟨fun a b => le_total a.1 b.1⟩

instance {β : Type} : IsTrans (String × β) keyLe := ⟨fun _ _ _ h1 h2 => le_trans h1 h2⟩

mutual

/-- stableStringify from grooveEngine.js: primitives and null serialize as
JSON; arrays preserve order; objects serialize their pairs sorted
lexicographically by key (the model sorts the key-value pairs, which for the
duplicate-free key lists of JS objects is Object.keys(obj).sort() followed by
the obj[k] lookups of the source). -/
def stableStringify : JValue → String
  | .null => "null"
  | .bool b => if b then "true" else "false"
  | .num q => jsonNum q
  | .str s => jsonEscape s
  | .arr items => "[" ++ String.intercalate "," (stringifyList items) ++ "]"
  | .obj fields =>
    "\x7b" ++
      String.intercalate "," (stringifyEntries (List.insertionSort keyLe fields)) ++ "\x7d"
termination_by v => sizeOf v
decreasing_by
  all_goals simp_wf
  all_goals (have h := (List.perm_insertionSort keyLe fields).sizeOf_eq_sizeOf; omega)

/-- The per-element serialization of an array. -/
def stringifyList : List JValue → List String
  | [] => []
  | v :: vs => stableStringify v :: stringifyList vs
termination_by l => sizeOf l
decreasing_by
  all_goals simp_wf
  all_goals omega

/-- The per-entry serialization `JSON.stringify(k) + ":" + stableStringify(obj[k])`
of the key-sorted pairs of an object. -/
def stringifyEntries : List (String × JValue) → List String
  | [] => []
  | e :: es => (jsonEscape e.1 ++ ":" ++ stableStringify e.2) :: stringifyEntries es
termination_by l => sizeOf l
decreasing_by
  all_goals simp_wf
  all_goals (rcases e with ⟨k, v⟩; simp; omega)

end

/-- computeGrooveHash from grooveEngine.js. Modelled from the spec: the
SHA-256 digest over the UTF-8 bytes of the canonical form is computed by the
browser primitive crypto.subtle.digest, which is outside this repository; it
is abstracted as the digest argument, applied to the stableStringify image
exactly as the source does. -/
def computeGrooveHash (digest : String → String) (grooveProfile : JValue) : String :=
  digest (stableStringify grooveProfile)

mutual

/-- Well-formedness of a JSON value as produced by a JS runtime: every object
key list, at every depth, is duplicate-free. -/
def wfKeys : JValue → Bool
  | .null => true
  | .bool _ => true
  | .num _ => true
  | .str _ => true
  | .arr items => wfKeysList items
  | .obj fields => decide ((fields.map Prod.fst).Nodup) && wfKeysEntries fields

def wfKeysList : List JValue → Bool
  | [] => true
  | v :: vs => wfKeys v && wfKeysList vs

def wfKeysEntries : List (String × JValue) → Bool
  | [] => true
  | e :: es => wfKeys e.2 && wfKeysEntries es

end

mutual

/-- Structural equality of JSON values up to the ordering of object keys at
any depth, arrays kept in order. An object on the right is obtained from the
left by permuting its pairs and replacing the values with equivalent ones. -/
inductive JEquiv : JValue → JValue → Prop where
  | null : JEquiv .null .null
  | bool (b : Bool) : JEquiv (.bool b) (.bool b)
  | num (q : ℚ) : JEquiv (.num q) (.num q)
  | str (s : String) : JEquiv (.str s) (.str s)
  | arr {xs ys : List JValue} : JEquivList xs ys → JEquiv (.arr xs) (.arr ys)
  | obj {fs gs2 gs : List (String × JValue)} : fs.Perm gs2 → JEquivEntries gs2 gs →
      JEquiv (.obj fs) (.obj gs)

/-- Elementwise equivalence of array items, in order. -/
inductive JEquivList : List JValue → List JValue → Prop where
  | nil : JEquivList [] []
  | cons {x y : JValue} {xs ys : List JValue} : JEquiv x y → JEquivList xs ys →
      JEquivList (x :: xs) (y :: ys)

/-- Entrywise relation of object pair lists: equal keys, equivalent values. -/
inductive JEquivEntries : List (String × JValue) → List (String × JValue) → Prop where
  | nil : JEquivEntries [] []
  | cons {a b : String × JValue} {as2 bs : List (String × JValue)} : a.1 = b.1 →
      JEquiv a.2 b.2 → JEquivEntries as2 bs → JEquivEntries (a :: as2) (b :: bs)

end

lemma stableStringify_arr (items : List JValue) :
    stableStringify (.arr items) = "[" ++ String.intercalate "," (stringifyList items) ++ "]" := by
  simp only [stableStringify]

lemma stableStringify_obj (fields : List (String × JValue)) :
    stableStringify (.obj fields) = "\x7b" ++
      String.intercalate "," (stringifyEntries (List.insertionSort keyLe fields)) ++ "\x7d" := by
  simp only [stableStringify]

lemma stringifyList_eq_map (l : List JValue) : stringifyList l = l.map stableStringify := by
  induction l with
  | nil => simp only [stringifyList, List.map_nil]
  | cons v vs ih => simp only [stringifyList, List.map_cons, ih]

lemma stringifyEntries_eq_map (l : List (String × JValue)) :
    stringifyEntries l = l.map (fun e => jsonEscape e.1 ++ ":" ++ stableStringify e.2) := by
  induction l with
  | nil => simp only [stringifyEntries, List.map_nil]
  | cons e es ih => simp only [stringifyEntries, List.map_cons, ih]

lemma wfKeysList_mem {items : List JValue} (h : wfKeysList items = true) {v : JValue}
    (hv : v ∈ items) : wfKeys v = true := by
  induction items with
  | nil => cases hv
  | cons x xs ih =>
    rw [wfKeysList, Bool.and_eq_true] at h
    rcases List.mem_cons.mp hv with rfl | hv2
    · exact h.1
    · exact ih h.2 hv2

lemma wfKeysEntries_mem {fields : List (String × JValue)} (h : wfKeysEntries fields = true)
    {e : String × JValue} (he : e ∈ fields) : wfKeys e.2 = true := by
  induction fields with
  | nil => cases he
  | cons x xs ih =>
    rw [wfKeysEntries, Bool.and_eq_true] at h
    rcases List.mem_cons.mp he with rfl | he2
    · exact h.1
    · exact ih h.2 he2

lemma wfKeys_obj_nodup {fields : List (String × JValue)} (h : wfKeys (.obj fields) = true) :
    (fields.map Prod.fst).Nodup := by
  rw [wfKeys, Bool.and_eq_true, decide_eq_true_eq] at h
  exact h.1

lemma wfKeys_obj_entries {fields : List (String × JValue)} (h : wfKeys (.obj fields) = true) :
    wfKeysEntries fields = true := by
  rw [wfKeys, Bool.and_eq_true] at h
  exact h.2

lemma wfKeys_arr_list {items : List JValue} (h : wfKeys (.arr items) = true) :
    wfKeysList items = true := by
  rw [wfKeys] at h
  exact h

lemma jvalue_sizeOf_pos (v : JValue) : 0 < sizeOf v := by
  cases v <;>
    simp only [JValue.null.sizeOf_spec, JValue.bool.sizeOf_spec, JValue.num.sizeOf_spec,
      JValue.str.sizeOf_spec, JValue.arr.sizeOf_spec, JValue.obj.sizeOf_spec] <;>
    omega

lemma sizeOf_mem_arr {v : JValue} {items : List JValue} (h : v ∈ items) :
    sizeOf v < sizeOf (JValue.arr items) := by
  have h2 := List.sizeOf_lt_of_mem h
  simp only [JValue.arr.sizeOf_spec]
  omega

lemma sizeOf_mem_obj {e : String × JValue} {fields : List (String × JValue)} (h : e ∈ fields) :
    sizeOf e.2 < sizeOf (JValue.obj fields) := by
  have h2 := List.sizeOf_lt_of_mem h
  obtain ⟨k, v⟩ := e
  simp only [JValue.obj.sizeOf_spec]
  simp only [Prod.mk.sizeOf_spec] at h2
  show sizeOf v < 1 + sizeOf fields
  omega

lemma orderedInsert_map_snd {β γ : Type} (g : β → γ) (a : String × β) (l : List (String × β)) :
    (List.orderedInsert keyLe a l).map (fun e => (e.1, g e.2)) =
      List.orderedInsert keyLe (a.1, g a.2) (l.map (fun e => (e.1, g e.2))) := by
  induction l with
  | nil => rfl
  | cons b bs ih =>
    by_cases h : a.1 ≤ b.1
    · simp [List.orderedInsert, keyLe, h]
    · simp [List.orderedInsert, keyLe, h, ih]

lemma insertionSort_map_snd {β γ : Type} (g : β → γ) (l : List (String × β)) :
    (List.insertionSort keyLe l).map (fun e => (e.1, g e.2)) =
      List.insertionSort keyLe (l.map (fun e => (e.1, g e.2))) := by
  induction l with
  | nil => rfl
  | cons a l ih =>
    simp only [List.insertionSort, List.map_cons]
    rw [orderedInsert_map_snd, ih]

lemma sorted_keyLt_of_sorted_nodup {β : Type} :
    ∀ {l : List (String × β)}, List.Sorted keyLe l → (l.map Prod.fst).Nodup →
      List.Pairwise (fun a b : String × β => a.1 < b.1) l := by
  intro l
  induction l with
  | nil => intro _ _; exact List.Pairwise.nil
  | cons a l ih =>
    intro hs hnd
    rw [List.sorted_cons] at hs
    have hne : ∀ b ∈ l, a.1 ≠ b.1 := by
      rw [List.map_cons, List.nodup_cons] at hnd
      intro b hb heq
      exact hnd.1 (heq ▸ List.mem_map_of_mem Prod.fst hb)
    have hnd2 : (l.map Prod.fst).Nodup := by
      rw [List.map_cons, List.nodup_cons] at hnd
      exact hnd.2
    exact List.Pairwise.cons
      (fun b hb => lt_of_le_of_ne (show a.1 ≤ b.1 from hs.1 b hb) (hne b hb))
      (ih hs.2 hnd2)

instance {β : Type} : IsAntisymm (String × β) (fun a b => a.1 < b.1) :=
  ⟨fun _ _ h1 h2 => absurd h2 (lt_asymm h1)⟩

lemma insertionSort_eq_of_perm_nodup {β : Type} {l₁ l₂ : List (String × β)}
    (hp : l₁.Perm l₂) (hnd : (l₁.map Prod.fst).Nodup) :
    List.insertionSort keyLe l₁ = List.insertionSort keyLe l₂ := by
  have hp1 := List.perm_insertionSort keyLe l₁
  have hp2 := List.perm_insertionSort keyLe l₂
  have hps : (List.insertionSort keyLe l₁).Perm (List.insertionSort keyLe l₂) :=
    hp1.trans (hp.trans hp2.symm)
  have hnd1 : ((List.insertionSort keyLe l₁).map Prod.fst).Nodup :=
    ((hp1.map Prod.fst).nodup_iff).mpr hnd
  have hnd2 : ((List.insertionSort keyLe l₂).map Prod.fst).Nodup :=
    ((hps.map Prod.fst).nodup_iff).mp hnd1
  have hs1 := sorted_keyLt_of_sorted_nodup (List.sorted_insertionSort keyLe l₁) hnd1
  have hs2 := sorted_keyLt_of_sorted_nodup (List.sorted_insertionSort keyLe l₂) hnd2
  exact List.eq_of_perm_of_sorted hps hs1 hs2

lemma jequivList_map_eq : ∀ {xs ys : List JValue}, JEquivList xs ys →
    (∀ x ∈ xs, ∀ y : JValue, JEquiv x y → stableStringify x = stableStringify y) →
    xs.map stableStringify = ys.map stableStringify := by
  intro xs
  induction xs with
  | nil =>
    intro ys h _
    cases h
    rfl
  | cons x xs ih =>
    intro ys h hf
    cases h with
    | cons hxy hrest =>
      rw [List.map_cons, List.map_cons, hf _ (List.mem_cons_self _ _) _ hxy,
        ih hrest (fun x2 hx y2 hy => hf x2 (List.mem_cons_of_mem _ hx) y2 hy)]

lemma jequivEntries_map_eq : ∀ {as2 bs : List (String × JValue)}, JEquivEntries as2 bs →
    (∀ e ∈ as2, ∀ y : JValue, JEquiv e.2 y → stableStringify e.2 = stableStringify y) →
    as2.map (fun e => (e.1, stableStringify e.2)) =
      bs.map (fun e => (e.1, stableStringify e.2)) := by
  intro as2
  induction as2 with
  | nil =>
    intro bs h _
    cases h
    rfl
  | cons a as3 ih =>
    intro bs h hf
    cases h with
    | cons hk hv hrest =>
      rw [List.map_cons, List.map_cons]
      congr 1
      · exact Prod.ext hk (hf _ (List.mem_cons_self _ _) _ hv)
      · exact ih hrest (fun e he y hy => hf e (List.mem_cons_of_mem _ he) y hy)

theorem stableStringify_jequiv_aux :
    ∀ n : ℕ, ∀ a b : JValue, sizeOf a ≤ n → wfKeys a = true → JEquiv a b →
      stableStringify a = stableStringify b := by
  intro n
  induction n with
  | zero =>
    intro a b hsize _ _
    have := jvalue_sizeOf_pos a
    omega
  | succ n ih =>
    intro a b hsize hwf heq
    cases heq with
    | null => rfl
    | bool b2 => rfl
    | num q => rfl
    | str s => rfl
    | arr hlist =>
      rename_i xs ys
      rw [stableStringify_arr, stableStringify_arr, stringifyList_eq_map,
        stringifyList_eq_map]
      rw [jequivList_map_eq hlist (fun x hx y hy => by
        refine ih x y ?_ ?_ hy
        · have := sizeOf_mem_arr hx
          omega
        · exact wfKeysList_mem (wfKeys_arr_list hwf) hx)]
    | obj hperm hentries =>
      rename_i fs gs2 gs
      rw [stableStringify_obj, stableStringify_obj, stringifyEntries_eq_map,
        stringifyEntries_eq_map]
      have hent : ∀ l : List (String × JValue),
          l.map (fun e => jsonEscape e.1 ++ ":" ++ stableStringify e.2) =
            (l.map (fun e => (e.1, stableStringify e.2))).map
              (fun p => jsonEscape p.1 ++ ":" ++ p.2) := by
        intro l
        rw [List.map_map]
        rfl
      rw [hent, hent, insertionSort_map_snd stableStringify fs,
        insertionSort_map_snd stableStringify gs]
      have hmapF : gs2.map (fun e => (e.1, stableStringify e.2)) =
          gs.map (fun e => (e.1, stableStringify e.2)) := by
        refine jequivEntries_map_eq hentries (fun e he y hy => ?_)
        have hefs : e ∈ fs := hperm.mem_iff.mpr he
        refine ih e.2 y ?_ ?_ hy
        · have := sizeOf_mem_obj hefs
          omega
        · exact wfKeysEntries_mem (wfKeys_obj_entries hwf) hefs
      have hpermF : (fs.map (fun e => (e.1, stableStringify e.2))).Perm
          (gs.map (fun e => (e.1, stableStringify e.2))) := by
        have hp2 := hperm.map (fun e => (e.1, stableStringify e.2))
        rw [hmapF] at hp2
        exact hp2
      have hndF : ((fs.map (fun e => (e.1, stableStringify e.2))).map Prod.fst).Nodup := by
        have hmm : (fs.map (fun e => (e.1, stableStringify e.2))).map Prod.fst =
            fs.map Prod.fst := by
          rw [List.map_map]
          rfl
        rw [hmm]
        exact wfKeys_obj_nodup hwf
      rw [insertionSort_eq_of_perm_nodup hpermF hndF]

/-- C8 - Hash stability under key reordering: for JSON values a and b that
are structurally equal up to the ordering of object keys at any depth (arrays
kept in order), with the duplicate-free object keys every JS object has,
stableStringify agrees on a and b, and computeGrooveHash (the digest of that
canonical form, for any digest function) therefore agrees as well. -/
theorem stable_stringify_key_reorder (a b : JValue) (hwf : wfKeys a = true)
    (h : JEquiv a b) :
    stableStringify a = stableStringify b ∧
      ∀ digest : String → String, computeGrooveHash digest a = computeGrooveHash digest b := by
  have hs := stableStringify_jequiv_aux (sizeOf a) a b le_rfl hwf h
  exact ⟨hs, fun digest => by unfold computeGrooveHash; rw [hs]⟩

/-- Witness for stable_stringify_key_reorder on a pair of concrete values
with reordered keys at two depths. -/
theorem stable_stringify_key_reorder_witness :
    stableStringify (JValue.obj [("z", JValue.num 1),
        ("a", JValue.arr [JValue.obj [("b", JValue.bool true), ("a", JValue.null)]])]) =
      stableStringify (JValue.obj [("a", JValue.arr [JValue.obj [("a", JValue.null),
        ("b", JValue.bool true)]]), ("z", JValue.num 1)]) ∧
      ∀ digest : String → String,
        computeGrooveHash digest (JValue.obj [("z", JValue.num 1),
            ("a", JValue.arr [JValue.obj [("b", JValue.bool true), ("a", JValue.null)]])]) =
          computeGrooveHash digest (JValue.obj [("a", JValue.arr [JValue.obj
            [("a", JValue.null), ("b", JValue.bool true)]]), ("z", JValue.num 1)]) := by
  refine stable_stringify_key_reorder _ _ ?_ ?_
  · rfl
  · exact JEquiv.obj
      (List.Perm.swap
        ("a", JValue.arr [JValue.obj [("b", JValue.bool true), ("a", JValue.null)]])
        ("z", JValue.num 1) [])
      (JEquivEntries.cons rfl
        (JEquiv.arr (JEquivList.cons
          (JEquiv.obj (List.Perm.swap ("a", JValue.null) ("b", JValue.bool true) [])
            (JEquivEntries.cons rfl JEquiv.null
              (JEquivEntries.cons rfl (JEquiv.bool true) JEquivEntries.nil)))
          JEquivList.nil))
        (JEquivEntries.cons rfl (JEquiv.num 1) JEquivEntries.nil))
